import Mathlib

/-!
Verification of the episode-recorder extension (content script + service
worker) against its natural-language specification.

The development shallowly embeds the JavaScript source:

* string helpers model the JS `String.prototype.trim`, whitespace
  collapsing (`replace(/\s+/g, " ")`), `split(/\s+/)`, `toLowerCase` and
  `includes` used by `content.js`;
* `Elem` models the surface of a DOM element read by the content script
  (`content.js`), with `accessibleName`, `isSensitiveInput`, the change
  handler's value extraction, visibility and the page-scanner ranking;
* `BgState` models the service worker's IndexedDB contents (episodes,
  steps, settings) together with the operations of the message handler
  (`clearAll`, `startRecording`, `stopRecording`, `setOptions`, the
  `RECORDER_EVENT` step branch, the delayed post-capture callback and
  `RECORDER_EXPORT`).

Machine strings are Lean `String`s (JS UTF-16 lengths are modelled as
character counts); rectangle coordinates are `Int` (the claims under
verification only compare them).
-/

/-! ### String helpers (JS string operations used by content.js) -/

/-- Whitespace test used to model the `\s` character class of the JS
regular expressions and the whitespace set of `String.prototype.trim`. -/
def wsChar (c : Char) : Bool := c.isWhitespace

/-- Remove trailing whitespace characters from a list of characters. -/
def trimRightList (l : List Char) : List Char :=
  (l.reverse.dropWhile wsChar).reverse

/-- Remove leading and trailing whitespace characters.  Trimming the right
end first and then the left end gives the same result as JS
`String.prototype.trim` and keeps the head of the result exposed as the
head of a `dropWhile`. -/
def trimList (l : List Char) : List Char :=
  (trimRightList l).dropWhile wsChar

/-- Model of JS `s.trim()`. -/
def jsTrim (s : String) : String := ⟨trimList s.data⟩

/-- Helper for `collapseList`: `inRun` records whether the previous
character was whitespace (so that only the first of a run is kept). -/
def collapseAux : Bool → List Char → List Char
  | _, [] => []
  | inRun, c :: rest =>
    if wsChar c then
      if inRun then collapseAux true rest
      else ' ' :: collapseAux true rest
    else c :: collapseAux false rest

/-- Model of JS `s.replace(/\s+/g, " ")` on a character list: every maximal
run of whitespace becomes a single space. -/
def collapseList (l : List Char) : List Char := collapseAux false l

/-- Model of JS `s.trim().replace(/\s+/g, " ")`. -/
def trimCollapse (s : String) : String := ⟨collapseList (trimList s.data)⟩

/-- Model of JS `s.split(/\s+/).map(x => x.trim()).filter(Boolean)`: the
maximal whitespace-free tokens of `s`. -/
def splitWs (s : String) : List String :=
  ((s.data.splitOnP wsChar).map (fun l => (⟨l⟩ : String))).filter (fun t => t ≠ "")

/-- Helper for `strContains`: does `needle` occur as a contiguous run in
the haystack list? -/
def strContainsAux (needle : List Char) : List Char → Bool
  | [] => needle.isEmpty
  | c :: rest => needle.isPrefixOf (c :: rest) || strContainsAux needle rest

/-- Model of JS `hay.includes(needle)`. -/
def strContains (hay needle : String) : Bool :=
  strContainsAux needle.data hay.data

/-- Model of JS `s.slice(0, n)` (for non-negative `n`). -/
def jsSlice (s : String) (n : Nat) : String := ⟨s.data.take n⟩

/-- Model of JS `s.toLowerCase()`: lowercase character by character (the
same mapping as `String.toLower`, written by structural recursion so that
concrete instances evaluate). -/
def jsToLower (s : String) : String := ⟨s.data.map Char.toLower⟩

/-! ### Content-script element model (content.js)

`Elem` carries exactly the element surface that `content.js` reads.
Attribute fields hold `""` for an absent attribute, matching the source's
`(el.getAttribute && el.getAttribute(k)) || ""` normalisation (every use
site only tests attribute values for trimmed-nonemptiness, substring
membership or equality, for which `null` and `""` are interchangeable
under JS truthiness).  `tag` is the already-lowercased
`el.tagName.toLowerCase()`.  `innerText` stands for
`el.innerText || el.textContent || ""`.  `labelForRaw` is the raw text of
the `label[for=<id>]` element found by `document.querySelector` when the
element has an id and such a label exists (`none` otherwise);
`getById : String -> Option String` stands for `document.getElementById`,
returning the raw text of the referenced node. -/

structure Elem where
  tag : String
  idAttr : String
  ariaLabel : String
  ariaLabelledBy : String
  labelForRaw : Option String
  alt : String
  title : String
  placeholder : String
  value : String
  innerText : String
  typeAttr : String
  nameAttr : String
  autocompleteAttr : String
  isContentEditable : Bool
  selectedOptionRaw : Option String
  display : String
  visibility : String
  opacity : String
  rectX : Int
  rectY : Int
  rectW : Int
  rectH : Int
deriving DecidableEq, Repr

/-- The per-id resolved texts of an `aria-labelledby` id list: split on
whitespace, resolve each id to its trimmed text (`""` for a missing
node), keep the non-empty ones. -/
def labelledTexts (getById : String → Option String) (el : Elem) : List String :=
  ((splitWs el.ariaLabelledBy).map (fun pid =>
    match getById pid with
    | some t => jsTrim t
    | none => "")).filter (fun t => t ≠ "")

/-- content.js `getLabelFromAriaLabelledBy`: split the `aria-labelledby`
id list on whitespace, resolve each id, keep the non-empty trimmed texts,
join with single spaces; `null` when the attribute or the join is empty. -/
def getLabelFromAriaLabelledBy (getById : String → Option String) (el : Elem) : Option String :=
  if el.ariaLabelledBy = "" then none
  else if jsTrim (String.intercalate " " (labelledTexts getById el)) = "" then none
  else some (jsTrim (String.intercalate " " (labelledTexts getById el)))

/-- content.js `getLabelFromLabelFor`: the trimmed text of the
`label[for=<id>]` element associated with the element's id; `null` when
the element has no id, no such label exists, or the text is empty. -/
def getLabelFromLabelFor (el : Elem) : Option String :=
  if el.idAttr = "" then none
  else if jsTrim (el.labelForRaw.getD "") = "" then none
  else some (jsTrim (el.labelForRaw.getD ""))

/-- Does the accessible-name fallback treat the element as a text input
(`tag === "input" || tag === "textarea"`)? -/
def isInputLike (el : Elem) : Bool :=
  el.tag == "input" || el.tag == "textarea"

/-- content.js `accessibleName`: first non-empty of aria-label,
aria-labelledby texts, label-for text, alt, title, (inputs) placeholder
then value of length at most 80, collapsed rendered text truncated to 120
characters, and finally the tag name. -/
def accessibleName (getById : String → Option String) (el : Elem) : String :=
  let aria := jsTrim el.ariaLabel
  if aria ≠ "" then aria
  else match getLabelFromAriaLabelledBy getById el with
  | some labelled => labelled
  | none =>
    match getLabelFromLabelFor el with
    | some labFor => labFor
    | none =>
      let alt := jsTrim el.alt
      if alt ≠ "" then alt
      else
        let title := jsTrim el.title
        if title ≠ "" then title
        else
          let afterInput :=
            let txt := trimCollapse el.innerText
            if txt ≠ "" then jsSlice txt 120 else el.tag
          if isInputLike el then
            let ph := jsTrim el.placeholder
            if ph ≠ "" then ph
            else
              let val := jsTrim el.value
              if val ≠ "" ∧ val.length ≤ 80 then val else afterInput
          else afterInput

/-- First non-empty string of a candidate list, with a final default. -/
def firstNonEmpty (default : String) : List String → String
  | [] => default
  | c :: rest => if c ≠ "" then c else firstNonEmpty default rest

/-- Accessible-name resolution as worded by the specification: the first
non-empty candidate of the ordered list aria-label, labelledby join,
label-for text, alt, title, (text-input-like only) placeholder then value
of at most 80 characters, collapsed rendered text truncated to 120
characters, with the tag name as last resort. -/
def accessibleNameSpec (getById : String → Option String) (el : Elem) : String :=
  firstNonEmpty el.tag
    [ jsTrim el.ariaLabel,
      jsTrim (String.intercalate " "
        (((splitWs el.ariaLabelledBy).map (fun pid => jsTrim ((getById pid).getD ""))).filter
          (fun t => t ≠ ""))),
      (if el.idAttr = "" then "" else jsTrim (el.labelForRaw.getD "")),
      jsTrim el.alt,
      jsTrim el.title,
      (if isInputLike el then jsTrim el.placeholder else ""),
      (if isInputLike el ∧ (jsTrim el.value).length ≤ 80 then jsTrim el.value else ""),
      jsSlice (trimCollapse el.innerText) 120 ]

/-- content.js `isSensitiveInput`: an input or textarea whose lowercased
type is "password", or whose lowercased name contains "password" or
"passcode", or whose lowercased autocomplete contains "cc-", "credit" or
"card". -/
def isSensitiveInput (el : Elem) : Bool :=
  if el.tag != "input" && el.tag != "textarea" then false
  else
    let type := jsToLower el.typeAttr
    if ["password"].contains type then true
    else
      let name := jsToLower el.nameAttr
      let ac := jsToLower el.autocompleteAttr
      if strContains name "password" || strContains name "passcode" then true
      else if strContains ac "cc-" || strContains ac "credit" || strContains ac "card" then true
      else false

/-- Sensitivity as worded by the specification: an input/textarea whose
type is password, or whose name contains "password"/"passcode", or whose
autocomplete references a credit-card pattern ("cc-", "credit", "card"). -/
def sensitiveSpec (el : Elem) : Prop :=
  (el.tag = "input" ∨ el.tag = "textarea") ∧
    (jsToLower el.typeAttr = "password" ∨
      strContains (jsToLower el.nameAttr) "password" = true ∨
      strContains (jsToLower el.nameAttr) "passcode" = true ∨
      strContains (jsToLower el.autocompleteAttr) "cc-" = true ∨
      strContains (jsToLower el.autocompleteAttr) "credit" = true ∨
      strContains (jsToLower el.autocompleteAttr) "card" = true)

/-- The value-carrying part of the action emitted by the change handler. -/
inductive ChangeAction where
  | select (option_value : Option String)
  | input (value : String)
deriving DecidableEq, Repr

/-- content.js `onChange`, restricted to the guard and the value
extraction (the emitted action): `none` when the handler returns without
emitting; a `select` action for selects; an `input` action whose value is
the redaction marker for sensitive fields, the trimmed truncated text for
content-editable targets, and the truncated value otherwise. -/
def onChangeAction (el : Elem) : Option ChangeAction :=
  let isSel := el.tag == "select"
  let isTextInput := el.tag == "input" || el.tag == "textarea" || el.isContentEditable
  if !isSel && !isTextInput then none
  else if isSel then
    some (.select (el.selectedOptionRaw.map jsTrim))
  else
    some (.input
      (if isSensitiveInput el then "<redacted>"
       else if el.isContentEditable then jsSlice (jsTrim el.innerText) 2000
       else jsSlice el.value 2000))

/-! ### Page scanner (content.js `isVisible`, `listInteractables`) -/

/-- content.js `isVisible` on an element node: computed display, visibility
and opacity admit the element and its bounding box has positive width and
height. -/
def isVisible (el : Elem) : Bool :=
  if el.display == "none" || el.visibility == "hidden" || el.opacity == "0" then false
  else if el.rectW ≤ 0 || el.rectH ≤ 0 then false
  else true

/-- content.js viewport-intersection test of `listInteractables`:
`r.bottom >= 0 && r.right >= 0 && r.top <= innerHeight && r.left <= innerWidth`. -/
def inViewport (vw vh : Int) (el : Elem) : Bool :=
  (el.rectY + el.rectH ≥ 0) && (el.rectX + el.rectW ≥ 0) && (el.rectY ≤ vh) && (el.rectX ≤ vw)

/-- An entry of the scanner's `items` array: the fields that the ranking
comparator and the rendered output read. -/
structure ScanItem where
  label : String
  in_viewport : Bool
  y : Int
  x : Int
deriving DecidableEq, Repr

/-- content.js ranking comparator
`(a,b) => a.in_viewport !== b.in_viewport ? (a.in_viewport ? -1 : 1) : (a.bbox.y - b.bbox.y) || (a.bbox.x - b.bbox.x)`. -/
def cmpItems (a b : ScanItem) : Int :=
  if a.in_viewport ≠ b.in_viewport then (if a.in_viewport then -1 else 1)
  else if a.y - b.y ≠ 0 then a.y - b.y else a.x - b.x

/-- The non-strict order induced by the comparator (`cmpItems a b ≤ 0`).
A JS `Array.prototype.sort` with a consistent comparator produces an
output pairwise ordered by this relation. -/
def ItemLe (a b : ScanItem) : Prop := cmpItems a b ≤ 0

instance : DecidableRel ItemLe := fun a b => inferInstanceAs (Decidable (cmpItems a b ≤ 0))

/-- The comparator sort of content.js.  `Array.prototype.sort` is required
to be stable, and a stable sort for a total preorder is unique, so the
stable `List.insertionSort` models it exactly. -/
def rankItems (items : List ScanItem) : List ScanItem :=
  List.insertionSort ItemLe items

/-- Building one `items` entry from a surviving candidate: the label is
the trimmed accessible name truncated to 140 characters; `y`/`x` are the
bounding-box top/left. -/
def toScanItem (getById : String → Option String) (vw vh : Int) (el : Elem) : ScanItem :=
  { label := jsSlice (jsTrim (accessibleName getById el)) 140,
    in_viewport := inViewport vw vh el,
    y := el.rectY,
    x := el.rectX }

/-- The survivors of the scanner's per-candidate filter, in DOM order:
invisible elements are skipped, then elements whose accessible name is
empty or trims to empty are skipped. -/
def scanSurvivors (getById : String → Option String) (cands : List Elem) : List Elem :=
  (cands.filter (fun el => isVisible el)).filter
    (fun el => !(accessibleName getById el == "" || jsTrim (accessibleName getById el) == ""))

/-- content.js `listInteractables`, as the ordered list of ranked items:
collect at most `2 * limit` surviving candidates in DOM order, sort with
the comparator, truncate to `limit`.  (The source then assigns 1-based
indices over exactly this list to render `llm_representation` and
`selector_map`.) -/
def listInteractablesModel (getById : String → Option String) (vw vh : Int)
    (cands : List Elem) (limit : Nat) : List ScanItem :=
  let collected := ((scanSurvivors getById cands).take (limit * 2)).map (toScanItem getById vw vh)
  (rankItems collected).take limit

/-! ### Service-worker model (src/unnamed/part_002)

The service worker stores three IndexedDB collections: `episodes` keyed by
`episode_id`, `steps` keyed by `step_key = episodeId + ":" + stepNumber`,
and a single settings record.  Step rows are modelled with the pair
`(episode_id, step_number)` as key: the source's string key is an
injective encoding of that pair because episode ids are UUIDs, which
contain no colon.  `init()` runs at worker start and guarantees a settings
record exists, so settings are modelled as an always-present record.

Observations are reduced to the fields the step coordinator itself reads
when computing the derived diff (`url`, `title`, `page_info.scroll_y`);
screenshots, tab enrichment and DOM-state payloads ride inside the
observation in the source and are irrelevant to every claim below. -/

structure RecOptions where
  captureScreenshots : Bool
  captureDomState : Bool
deriving DecidableEq, Repr

/-- A caller-supplied options object, possibly specifying only some
fields; models the partial JS object spread `{...base, ...patch}`. -/
structure OptionsPatch where
  captureScreenshots : Option Bool := none
  captureDomState : Option Bool := none
deriving DecidableEq, Repr

/-- JS `{...(base || {}), ...(patch || {})}` on the options shape. -/
def mergeOptions (base : RecOptions) (p : OptionsPatch) : RecOptions :=
  { captureScreenshots := p.captureScreenshots.getD base.captureScreenshots,
    captureDomState := p.captureDomState.getD base.captureDomState }

structure Settings where
  isRecording : Bool
  episodeId : Option String
  startedAt : Option Nat
  stepCount : Nat
  lastMessage : String
  options : RecOptions
deriving DecidableEq, Repr

structure Episode where
  episode_id : String
  created_at : String
deriving DecidableEq, Repr

/-- The observation fields consumed by the derived diff. -/
structure Obs where
  url : String
  title : String
  scroll_y : Int
deriving DecidableEq, Repr

structure FieldDiff (α : Type) where
  before : α
  after : α
deriving DecidableEq, Repr

/-- `derived.page_diff` of the post-capture callback: an entry is present
exactly when the field changed. -/
structure Derived where
  url : Option (FieldDiff String)
  title : Option (FieldDiff String)
  scroll_y : Option (FieldDiff Int)
deriving DecidableEq, Repr

def mkDerived (pre post : Obs) : Derived :=
  { url := if pre.url ≠ post.url then some ⟨pre.url, post.url⟩ else none,
    title := if pre.title ≠ post.title then some ⟨pre.title, post.title⟩ else none,
    scroll_y := if pre.scroll_y ≠ post.scroll_y then some ⟨pre.scroll_y, post.scroll_y⟩ else none }

structure StepRecord where
  step_id : String
  step_number : Nat
  pre : Obs
  post : Option Obs
  derived : Option Derived
deriving DecidableEq, Repr

/-- A row of the `steps` object store. -/
structure StepRow where
  episode_id : String
  step_number : Nat
  step : StepRecord
deriving DecidableEq, Repr

/-- IndexedDB `put` on `steps`: replace any row with the same key, keep
the rest. -/
def putStep (l : List StepRow) (r : StepRow) : List StepRow :=
  l.filter (fun s => !(s.episode_id == r.episode_id && s.step_number == r.step_number)) ++ [r]

/-- IndexedDB `get` on `steps` by key. -/
def getStep (l : List StepRow) (eid : String) (n : Nat) : Option StepRow :=
  l.find? (fun s => s.episode_id == eid && s.step_number == n)

/-- IndexedDB `delete` on `steps` by key. -/
def deleteStep (l : List StepRow) (eid : String) (n : Nat) : List StepRow :=
  l.filter (fun s => !(s.episode_id == eid && s.step_number == n))

/-- Order on step rows used by `idbGetStepsForEpisode`'s
`rows.sort((a,b) => a.step_number - b.step_number)`. -/
def RowLe (a b : StepRow) : Prop := a.step_number ≤ b.step_number

instance : DecidableRel RowLe := fun a b => inferInstanceAs (Decidable (a.step_number ≤ b.step_number))

/-- part_002 `idbGetStepsForEpisode`: all rows of the episode, sorted
ascending by `step_number`. -/
def idbGetStepsForEpisode (l : List StepRow) (eid : String) : List StepRow :=
  List.insertionSort RowLe (l.filter (fun s => s.episode_id == eid))

/-- IndexedDB `put` on `episodes`. -/
def putEpisode (l : List Episode) (e : Episode) : List Episode :=
  l.filter (fun x => !(x.episode_id == e.episode_id)) ++ [e]

/-- IndexedDB `get` on `episodes`. -/
def getEpisode (l : List Episode) (eid : String) : Option Episode :=
  l.find? (fun x => x.episode_id == eid)

/-- IndexedDB `delete` on `episodes`. -/
def deleteEpisode (l : List Episode) (eid : String) : List Episode :=
  l.filter (fun x => !(x.episode_id == eid))

/-- The whole persistent state of the service worker. -/
structure BgState where
  settings : Settings
  episodes : List Episode
  steps : List StepRow
deriving DecidableEq, Repr

/-- The settings record written by `clearAll`. -/
def clearedSettings : Settings :=
  { isRecording := false,
    episodeId := none,
    startedAt := none,
    stepCount := 0,
    lastMessage := "Cleared.",
    options := { captureScreenshots := true, captureDomState := true } }

/-- part_002 `clearAll`: when an episode is active, delete each of its
step rows (by key, one at a time) and its episode record; then reset the
settings to the fresh non-recording default. -/
def clearAll (g : BgState) : BgState :=
  let g1 :=
    match g.settings.episodeId with
    | some eid =>
      let rows := idbGetStepsForEpisode g.steps eid
      { g with
        steps := rows.foldl (fun acc (r : StepRow) => deleteStep acc r.episode_id r.step_number) g.steps,
        episodes := deleteEpisode g.episodes eid }
    | none => g
  { g1 with settings := clearedSettings }

/-- The warning written by `startRecording` when injecting the capture
script into the active tab fails. -/
def injectionWarning (err : String) : String :=
  "Recording started, but could not access the active tab: " ++ err

/-- The response shape of the start operation. -/
structure StartResponse where
  episodeId : String
  stepCount : Nat
  lastMessage : String
deriving DecidableEq, Repr

/-- part_002 `startRecording`: create the episode record; merge
caller-supplied options over the persisted ones; attempt script injection
into the active tab (when one exists), downgrading failure to a warning
message; then write fresh recording settings.  `newId` stands for the
generated `crypto.randomUUID()`, `createdAt`/`startedAt` for the clock
reads, `activeTabExists`/`injectOk`/`injectErr` for the outcomes of the
tab query and of `chrome.scripting.executeScript`. -/
def startRecording (newId createdAt : String) (startedAt : Nat)
    (activeTabExists injectOk : Bool) (injectErr : String)
    (opts : OptionsPatch) (g : BgState) : BgState × StartResponse :=
  let episode : Episode := { episode_id := newId, created_at := createdAt }
  let g1 := { g with episodes := putEpisode g.episodes episode }
  let merged := mergeOptions g1.settings.options opts
  let lastMessage :=
    if activeTabExists && !injectOk then injectionWarning injectErr
    else "Recording started."
  let g2 := { g1 with settings :=
    { isRecording := true,
      episodeId := some newId,
      startedAt := some startedAt,
      stepCount := 0,
      lastMessage := lastMessage,
      options := merged } }
  (g2, { episodeId := newId, stepCount := 0, lastMessage := "Recording started." })

/-- part_002 `stopRecording`: a no-op when not recording; otherwise flip
`isRecording` off and update the message, leaving everything else. -/
def stopRecording (g : BgState) : BgState :=
  if !g.settings.isRecording then g
  else { g with settings :=
    { g.settings with isRecording := false, lastMessage := "Recording stopped." } }

/-- part_002 `setOptions`: merge the patch over the persisted options. -/
def setOptions (opts : OptionsPatch) (g : BgState) : BgState :=
  { g with settings :=
    { g.settings with
      options := mergeOptions g.settings.options opts,
      lastMessage := "Options updated." } }

/-! The `RECORDER_EVENT` step branch of the message listener runs, for one
event, the sequence: read the settings (`await getSettings()`), assign
`stepNumber = st.stepCount`, persist the pending step row, and write back
`{...st, stepCount: stepNumber + 1, ...}`.  Between the read and the two
writes the source awaits `chrome.tabs.get` (and optionally the screenshot
capture), so a second incoming event's handler can run its own
`getSettings()` read before the first handler has written anything.  The
three phases are modelled separately so that both the sequential handler
and such interleavings can be expressed. -/

/-- Phase 1 of the step branch: the settings snapshot taken by
`const st = await getSettings()`. -/
def stepRead (g : BgState) : Settings := g.settings

/-- Phase 2 of the step branch: persist the pending step (post and derived
null), keyed by the snapshot's episode and counter value. -/
def stepPendingPut (st : Settings) (stepId : String) (pre : Obs) (g : BgState) : BgState :=
  match st.episodeId with
  | none => g
  | some eid =>
    let row : StepRow :=
      { episode_id := eid,
        step_number := st.stepCount,
        step := { step_id := stepId, step_number := st.stepCount,
                  pre := pre, post := none, derived := none } }
    { g with steps := putStep g.steps row }

/-- Phase 3 of the step branch: write back the snapshot with the counter
incremented (`setSettings({...st, stepCount: stepNumber + 1, ...})`). -/
def stepCountWrite (st : Settings) (g : BgState) : BgState :=
  { g with settings :=
    { st with
      stepCount := st.stepCount + 1,
      lastMessage := "Recorded step " ++ toString st.stepCount ++ "." } }

/-- The step branch run atomically (no other handler interleaved between
its read and its writes): guard on recording state, then the three phases
in sequence.  Returns the assigned step number. -/
def handleStepEvent (stepId : String) (pre : Obs) (g : BgState) : BgState × Option Nat :=
  let st := stepRead g
  if !st.isRecording then (g, none)
  else match st.episodeId with
  | none => (g, none)
  | some _ =>
    (stepCountWrite st (stepPendingPut st stepId pre g), some st.stepCount)

/-- The delayed post-capture callback scheduled by the step branch: at
fire time re-read the settings and silently abandon unless the episode
captured in the closure is still the active one; otherwise merge the post
observation and the derived diff into the stored row (or abandon if the
row is gone).  `origEid`/`n`/`pre` are the closure captures; `post` stands
for the observation assembled from the page round-trip and tab lookup. -/
def postCaptureFire (origEid : String) (n : Nat) (pre post : Obs) (g : BgState) : BgState :=
  match g.settings.episodeId with
  | none => g
  | some cur =>
    if cur ≠ origEid then g
    else
      match getStep g.steps origEid n with
      | none => g
      | some row =>
        let row2 : StepRow :=
          { row with step :=
            { row.step with
              post := some post,
              derived := some (mkDerived pre post) } }
        { g with steps := putStep g.steps row2 }

/-- The exported episode object of the `RECORDER_EXPORT` branch. -/
structure EpisodeOut where
  episode_id : String
  created_at : String
  options : RecOptions
  steps : List StepRecord
deriving DecidableEq, Repr

/-- The response of the `RECORDER_EXPORT` branch. -/
structure ExportResponse where
  episode : Option EpisodeOut
  episodeId : Option String
  stepCount : Nat
  lastMessage : String
deriving DecidableEq, Repr

/-- part_002 `RECORDER_EXPORT` branch: with no active episode respond
"No episode."; otherwise read the episode record and the sorted step rows
and assemble the export (the source reads `ep.episode_id` without a null
check, so a missing episode record throws — surfaced here as `.error`,
matching the listener's catch-all that responds `{ok:false, error}`). -/
def exportEpisode (g : BgState) : Except String ExportResponse :=
  match g.settings.episodeId with
  | none => .ok { episode := none, episodeId := none, stepCount := 0, lastMessage := "No episode." }
  | some eid =>
    let rows := idbGetStepsForEpisode g.steps eid
    match getEpisode g.episodes eid with
    | none => .error "TypeError: ep is null"
    | some ep =>
      .ok { episode := some
              { episode_id := ep.episode_id,
                created_at := ep.created_at,
                options := g.settings.options,
                steps := rows.map (fun r => r.step) },
            episodeId := some eid,
            stepCount := rows.length,
            lastMessage := "Exported." }

/-- `n` step events processed sequentially (each handler's read-to-write
sequence completing before the next begins); event `k` carries step id
`ids k` and pre-observation `pres k`. -/
def runSteps (ids : Nat → String) (pres : Nat → Obs) : Nat → BgState → BgState
  | 0, g => g
  | Nat.succ k, g => (handleStepEvent (ids k) (pres k) (runSteps ids pres k g)).1

/-- One inbound operation of the service worker, for stating effects
common to all of them. -/
inductive BgOp where
  | clear
  | start (newId createdAt : String) (startedAt : Nat)
      (activeTabExists injectOk : Bool) (injectErr : String) (opts : OptionsPatch)
  | stop
  | setOpts (opts : OptionsPatch)
  | stepEvent (stepId : String) (pre : Obs)
  | postFire (origEid : String) (n : Nat) (pre post : Obs)
  | exportOp

/-- The state transition of each operation (`exportOp` only reads). -/
def applyBgOp : BgOp → BgState → BgState
  | .clear, g => clearAll g
  | .start id ca t tab ok err opts, g => (startRecording id ca t tab ok err opts g).1
  | .stop, g => stopRecording g
  | .setOpts o, g => setOptions o g
  | .stepEvent sid pre, g => (handleStepEvent sid pre g).1
  | .postFire e n pre post, g => postCaptureFire e n pre post g
  | .exportOp, g => g

/-- A start operation's generated UUID is fresh; every other operation
generates no id.  (Freshness of `crypto.randomUUID()` against a given
existing id.) -/
def opFreshFor (e : String) : BgOp → Prop
  | .start id _ _ _ _ _ _ => id ≠ e
  | _ => True

/-! ### Concrete states used by the interleaving demonstration and the
witnesses. -/

def demoObs : Obs := { url := "https://example.test/", title := "Example", scroll_y := 0 }

def demoSettings : Settings :=
  { isRecording := true, episodeId := some "ep-A", startedAt := some 0, stepCount := 0,
    lastMessage := "Recording started.",
    options := { captureScreenshots := false, captureDomState := true } }

def demoState : BgState :=
  { settings := demoSettings,
    episodes := [{ episode_id := "ep-A", created_at := "2026-01-01T00:00:00.000Z" }],
    steps := [] }

/-- Two step events for the active episode whose handlers interleave as
the event loop permits: both handlers complete their `getSettings()` read
(phase 1) while the counter is still 0 — legal because each handler
suspends at `await chrome.tabs.get` between its read and its writes —
then handler A persists its pending row and writes the counter, then
handler B does the same with its stale snapshot. -/
def racyTwoSteps : BgState :=
  let stA := stepRead demoState
  let stB := stepRead demoState
  let g1 := stepPendingPut stA "step-id-A" demoObs demoState
  let g2 := stepCountWrite stA g1
  let g3 := stepPendingPut stB "step-id-B" demoObs g2
  stepCountWrite stB g3

/-- An empty fresh-default state. -/
def freshState : BgState :=
  { settings :=
    { isRecording := false, episodeId := none, startedAt := none, stepCount := 0,
      lastMessage := "",
      options := { captureScreenshots := true, captureDomState := true } },
    episodes := [], steps := [] }

/-- A state in which episode "ep-B" is now active (as after clearing
"ep-A" and starting a new recording). -/
def demoStateB : BgState :=
  { settings := { demoSettings with episodeId := some "ep-B" },
    episodes := [{ episode_id := "ep-B", created_at := "2026-01-01T00:10:00.000Z" }],
    steps := [] }

/-- A password input, as a concrete witness element. -/
def pwElem : Elem :=
  { tag := "input", idAttr := "", ariaLabel := "", ariaLabelledBy := "", labelForRaw := none,
    alt := "", title := "", placeholder := "Password", value := "hunter2", innerText := "",
    typeAttr := "password", nameAttr := "pw", autocompleteAttr := "",
    isContentEditable := false, selectedOptionRaw := none,
    display := "block", visibility := "visible", opacity := "1",
    rectX := 10, rectY := 20, rectW := 200, rectH := 30 }

/-- A plain visible button, as a concrete witness element. -/
def buttonElem : Elem :=
  { tag := "button", idAttr := "", ariaLabel := "", ariaLabelledBy := "", labelForRaw := none,
    alt := "", title := "", placeholder := "", value := "", innerText := "Search",
    typeAttr := "", nameAttr := "", autocompleteAttr := "",
    isContentEditable := false, selectedOptionRaw := none,
    display := "block", visibility := "visible", opacity := "1",
    rectX := 10, rectY := 40, rectW := 80, rectH := 30 }

/-- A `document.getElementById` resolver for a document with no
relevant ids. -/
def noById : String → Option String := fun _ => none

/-- A scanner item inside the viewport (a visible button). -/
def inViewItem : ScanItem := { label := "Search", in_viewport := true, y := 40, x := 10 }

/-- A same-size scanner item below the fold. -/
def belowFoldItem : ScanItem := { label := "Archive", in_viewport := false, y := 2000, x := 10 }

/-- The pending row created for the `k`-th sequential step event of an
episode (used to state the run invariant of the step branch). -/
def stepRowAt (ids : Nat → String) (pres : Nat → Obs) (newId : String) (k : Nat) : StepRow :=
  { episode_id := newId, step_number := k,
    step := { step_id := ids k, step_number := k, pre := pres k,
              post := none, derived := none } }

/-! ### Theorems -/

/-- C1.  Claim: two action events processed by the step branch for the
same active episode always get distinct step_numbers and neither pending
record overwrites the other, even when their asynchronous handling
interleaves.  The code violates this: each incoming message runs its own
async listener body, and between the `getSettings()` read and the
`idbPut`/`setSettings` writes the handler suspends at `await
chrome.tabs.get`, so a second handler can read the same counter value.
In the interleaving `racyTwoSteps` (A reads, B reads, A puts pending and
increments, B puts pending and increments) both events are assigned
step_number 0, B's pending row replaces A's — the store ends with the
single row `("ep-A", 0, "step-id-B")` — and the counter ends at 1 after
two recorded steps. -/
theorem step_number_race_overwrites :
    (racyTwoSteps.steps.map (fun r => (r.episode_id, r.step_number, r.step.step_id)))
        = [("ep-A", 0, "step-id-B")] ∧
      racyTwoSteps.settings.stepCount = 1 := by
  refine ⟨rfl, rfl⟩

/-- C6.  A scheduled post-capture whose originating episode is no longer
the active one (the active episode is absent or different) writes
nothing: the state is returned unchanged, and the model is a total
function, so no error is raised. -/
theorem stale_post_capture_noop (g : BgState) (A : String) (n : Nat) (pre post : Obs)
    (h : g.settings.episodeId ≠ some A) :
    postCaptureFire A n pre post g = g := by
  unfold postCaptureFire
  cases hcur : g.settings.episodeId with
  | none => rfl
  | some cur =>
    have hne : cur ≠ A := fun e => h (by rw [hcur, e])
    simp [hne]

/-- Witness for C6: a lingering timer of episode "ep-A" fires while
"ep-B" is active and leaves the state untouched. -/
theorem stale_post_capture_noop_witness :
    postCaptureFire "ep-A" 0 demoObs demoObs demoStateB = demoStateB :=
  stale_post_capture_noop demoStateB "ep-A" 0 demoObs demoObs (by decide)

/-- Generic store lemma: filtering by a predicate implied by the search
predicate does not change a `find?`. -/
theorem find?_filter_of_imp {α : Type} (p q : α → Bool) (l : List α)
    (h : ∀ x, p x = true → q x = true) :
    (l.filter q).find? p = l.find? p := by
  induction l with
  | nil => rfl
  | cons x xs ih =>
    by_cases hq : q x = true
    · by_cases hp : p x = true
      · simp [List.filter_cons, hq, List.find?, hp]
      · have hp2 : p x = false := by simpa using hp
        simp [List.filter_cons, hq, List.find?, hp2, ih]
    · have hq2 : q x = false := by simpa using hq
      have hp2 : p x = false := by
        cases hpx : p x
        · rfl
        · exact absurd (h x hpx) hq
      simp [List.filter_cons, hq2, List.find?, hp2, ih]

/-- `put` on the episodes store makes the written episode retrievable. -/
theorem getEpisode_putEpisode_self (l : List Episode) (e : Episode) :
    getEpisode (putEpisode l e) e.episode_id = some e := by
  unfold getEpisode putEpisode
  rw [List.find?_append]
  have hnone : (l.filter fun x => !(x.episode_id == e.episode_id)).find?
      (fun x => x.episode_id == e.episode_id) = none := by
    rw [List.find?_eq_none]
    intro x hx
    have := List.of_mem_filter hx
    simpa using this
  rw [hnone]
  simp [List.find?]

/-- The injection-failure warning is never the success message. -/
theorem injection_warning_ne (err : String) :
    injectionWarning err ≠ "Recording started." := by
  intro h
  have h2 := congrArg String.length h
  rw [injectionWarning, String.length_append] at h2
  have hp : ("Recording started, but could not access the active tab: " : String).length = 56 := rfl
  have hs : ("Recording started." : String).length = 18 := rfl
  rw [hp, hs] at h2
  omega

/-- C8.  When script injection into the active tab fails, recording still
starts: the persisted settings have `isRecording = true`, the fresh
episode id, a zeroed step counter, and the descriptive warning (not the
success message) as status; the new episode record is created. -/
theorem start_succeeds_on_injection_failure (g : BgState) (newId createdAt : String)
    (startedAt : Nat) (err : String) (opts : OptionsPatch) :
    (startRecording newId createdAt startedAt true false err opts g).1.settings.isRecording
        = true ∧
      (startRecording newId createdAt startedAt true false err opts g).1.settings.episodeId
        = some newId ∧
      (startRecording newId createdAt startedAt true false err opts g).1.settings.stepCount = 0 ∧
      (startRecording newId createdAt startedAt true false err opts g).1.settings.lastMessage
        = injectionWarning err ∧
      (startRecording newId createdAt startedAt true false err opts g).1.settings.lastMessage
        ≠ "Recording started." ∧
      getEpisode (startRecording newId createdAt startedAt true false err opts g).1.episodes newId
        = some { episode_id := newId, created_at := createdAt } := by
  refine ⟨rfl, rfl, rfl, rfl, ?_, ?_⟩
  · exact fun h => injection_warning_ne err h
  · exact getEpisode_putEpisode_self g.episodes { episode_id := newId, created_at := createdAt }

/-- The detection of `isSensitiveInput` agrees with the specification's
sensitivity predicate (in particular it returns false on every
non-sensitive target). -/
theorem isSensitiveInput_iff (el : Elem) : isSensitiveInput el = true ↔ sensitiveSpec el := by
  unfold isSensitiveInput sensitiveSpec
  by_cases h1 : el.tag = "input" <;> by_cases h2 : el.tag = "textarea" <;>
    simp only [h1, h2, bne_self_eq_false, Bool.false_and, Bool.and_false, if_neg, if_pos] <;>
    split_ifs <;> simp_all <;> tauto

/-- A sensitive element passes the tag guard. -/
theorem isSensitiveInput_tag (el : Elem) (h : isSensitiveInput el = true) :
    el.tag = "input" ∨ el.tag = "textarea" := by
  by_contra hc
  push_neg at hc
  rw [isSensitiveInput] at h
  rw [if_pos] at h
  · exact Bool.false_ne_true h
  · simp only [Bool.and_eq_true, bne_iff_ne]
    exact ⟨hc.1, hc.2⟩

/-- For a sensitive target the change handler emits the redaction marker,
whatever value was typed. -/
theorem onChange_redacts (el : Elem) (h : isSensitiveInput el = true) (v : String) :
    onChangeAction { el with value := v } = some (.input "<redacted>") := by
  have htag : el.tag = "input" ∨ el.tag = "textarea" := isSensitiveInput_tag el h
  have hsens : isSensitiveInput { el with value := v } = true := h
  have htag2 : Elem.tag { el with value := v } = "input" ∨
      Elem.tag { el with value := v } = "textarea" := htag
  generalize hx : ({ el with value := v } : Elem) = x at hsens htag2 ⊢
  unfold onChangeAction
  rcases htag2 with h1 | h1 <;> simp [h1, hsens]

/-- C2.  Sensitive-field redaction: the detection returns true exactly on
the specification's sensitive inputs/textareas (and false on every
non-sensitive target), and for a sensitive target the change action's
value field equals the redaction marker regardless of the typed value —
the emitted value is a constant, so it never carries the literal typed
value. -/
theorem sensitive_change_redaction (el : Elem) :
    (isSensitiveInput el = true ↔ sensitiveSpec el) ∧
      (isSensitiveInput el = true →
        ∀ v : String, onChangeAction { el with value := v } = some (.input "<redacted>")) :=
  ⟨isSensitiveInput_iff el, fun h v => onChange_redacts el h v⟩

/-- Witness for C2: a concrete password input's change action carries the
redaction marker, not the typed value. -/
theorem sensitive_change_redaction_witness :
    isSensitiveInput pwElem = true ∧
      onChangeAction { pwElem with value := "hunter2" } = some (.input "<redacted>") :=
  ⟨by decide, (sensitive_change_redaction pwElem).2 (by decide) "hunter2"⟩

/-- Dropping a leading run of `p`-elements removes no other `p`-violations:
everything left satisfies `p` iff everything did. -/
theorem forall_mem_dropWhile_iff {α : Type} (p : α → Bool) (m : List α) :
    (∀ x ∈ m.dropWhile p, p x = true) ↔ (∀ x ∈ m, p x = true) := by
  constructor
  · intro h x hx
    rcases List.mem_append.1
        ((List.takeWhile_append_dropWhile p m) ▸ hx) with h1 | h1
    · exact List.mem_takeWhile_imp h1
    · exact h x h1
  · intro h x hx
    exact h x ((List.dropWhile_sublist p).subset hx)

/-- The head surviving a `dropWhile` fails the predicate. -/
theorem dropWhile_cons_not {α : Type} (p : α → Bool) (m : List α) (c : α) (t : List α)
    (h : m.dropWhile p = c :: t) : p c = false := by
  induction m with
  | nil => simp at h
  | cons x xs ih =>
    rw [List.dropWhile_cons] at h
    by_cases hpx : p x = true
    · rw [if_pos hpx] at h
      exact ih h
    · rw [if_neg hpx] at h
      cases h
      simpa using hpx

/-- The trim of a character list is empty iff the list is all whitespace. -/
theorem trimList_eq_nil_iff (l : List Char) :
    trimList l = [] ↔ ∀ c ∈ l, wsChar c = true := by
  unfold trimList trimRightList
  rw [List.dropWhile_eq_nil_iff]
  constructor
  · intro h c hc
    have h2 : ∀ x ∈ l.reverse.dropWhile wsChar, wsChar x = true := by
      intro x hx
      exact h x (by simpa using hx)
    exact (forall_mem_dropWhile_iff wsChar l.reverse).1 h2 c (by simpa using hc)
  · intro h c hc
    have hc2 : c ∈ l.reverse.dropWhile wsChar := by simpa using hc
    have hc3 : c ∈ l := by
      have := (List.dropWhile_sublist wsChar).subset hc2
      simpa using this
    exact h c hc3

/-- A non-empty trim starts with a non-whitespace character. -/
theorem trimList_head_not_ws (l : List Char) (c : Char) (t : List Char)
    (h : trimList l = c :: t) : wsChar c = false :=
  dropWhile_cons_not wsChar (trimRightList l) c t h

/-- `jsTrim s` is empty iff `s` is all whitespace. -/
theorem jsTrim_eq_empty_iff (s : String) :
    jsTrim s = "" ↔ ∀ c ∈ s.data, wsChar c = true := by
  constructor
  · intro h
    exact (trimList_eq_nil_iff s.data).1 (congrArg String.data h)
  · intro h
    have : trimList s.data = [] := (trimList_eq_nil_iff s.data).2 h
    unfold jsTrim
    rw [this]

/-- Trimming an already-trimmed non-empty string cannot empty it. -/
theorem jsTrim_jsTrim_ne (s : String) (h : jsTrim s ≠ "") : jsTrim (jsTrim s) ≠ "" := by
  intro h2
  rcases hx : trimList s.data with _ | ⟨c, t⟩
  · exact h (by unfold jsTrim; rw [hx])
  · have hcw : wsChar c = false := trimList_head_not_ws s.data c t hx
    have hall := (jsTrim_eq_empty_iff (jsTrim s)).1 h2
    have hmem : c ∈ (jsTrim s).data := by
      show c ∈ trimList s.data
      rw [hx]
      exact List.mem_cons_self c t
    have := hall c hmem
    rw [this] at hcw
    simp at hcw

/-- A label produced from `aria-labelledby` has a non-empty trim. -/
theorem getLabelFromAriaLabelledBy_some_trim (g : String → Option String) (el : Elem)
    (s : String) (h : getLabelFromAriaLabelledBy g el = some s) : jsTrim s ≠ "" := by
  unfold getLabelFromAriaLabelledBy at h
  by_cases ha : el.ariaLabelledBy = ""
  · rw [if_pos ha] at h
    exact absurd h (by simp)
  · rw [if_neg ha] at h
    by_cases hj : jsTrim (String.intercalate " " (labelledTexts g el)) = ""
    · rw [if_pos hj] at h
      exact absurd h (by simp)
    · rw [if_neg hj] at h
      have hs : s = jsTrim (String.intercalate " " (labelledTexts g el)) :=
        (Option.some.injEq _ _ ▸ h).symm
      rw [hs]
      exact jsTrim_jsTrim_ne _ hj

/-- A label produced from a `label[for]` element has a non-empty trim. -/
theorem getLabelFromLabelFor_some_trim (el : Elem) (s : String)
    (h : getLabelFromLabelFor el = some s) : jsTrim s ≠ "" := by
  unfold getLabelFromLabelFor at h
  by_cases ha : el.idAttr = ""
  · rw [if_pos ha] at h
    exact absurd h (by simp)
  · rw [if_neg ha] at h
    by_cases hj : jsTrim (el.labelForRaw.getD "") = ""
    · rw [if_pos hj] at h
      exact absurd h (by simp)
    · rw [if_neg hj] at h
      have hs : s = jsTrim (el.labelForRaw.getD "") := (Option.some.injEq _ _ ▸ h).symm
      rw [hs]
      exact jsTrim_jsTrim_ne _ hj

/-- Taking a positive prefix of a cons keeps the head. -/
theorem take_pos_cons {α : Type} (a : α) (l : List α) (n : Nat) (h : 0 < n) :
    (a :: l).take n = a :: l.take (n - 1) := by
  cases n with
  | zero => omega
  | succ m => rfl

/-- The truncated collapsed rendered text, when the untruncated text is
non-empty, has a non-empty trim: the first character survives both the
collapse and the truncation and is not whitespace. -/
theorem trimCollapse_slice_trim_ne (s : String) (h : trimCollapse s ≠ "") :
    jsTrim (jsSlice (trimCollapse s) 120) ≠ "" := by
  rcases hx : trimList s.data with _ | ⟨c, t⟩
  · exact absurd (by unfold trimCollapse; rw [hx]; rfl) h
  · have hcw : wsChar c = false := trimList_head_not_ws s.data c t hx
    have hcollapse : (trimCollapse s).data = c :: collapseList t := by
      unfold trimCollapse
      rw [hx]
      show collapseAux false (c :: t) = c :: collapseAux false t
      rw [collapseAux, if_neg (by rw [hcw]; exact Bool.false_ne_true)]
    intro h2
    have hall := (jsTrim_eq_empty_iff _).1 h2
    have hmem : c ∈ (jsSlice (trimCollapse s) 120).data := by
      show c ∈ (trimCollapse s).data.take 120
      rw [hcollapse, take_pos_cons c _ 120 (by omega)]
      exact List.mem_cons_self c _
    have := hall c hmem
    rw [this] at hcw
    simp at hcw

/-- Every branch of `accessibleName` returns a string with a non-empty
trim, provided the tag name itself has one. -/
theorem accessibleName_trim_ne (getById : String → Option String) (el : Elem)
    (h : jsTrim el.tag ≠ "") : jsTrim (accessibleName getById el) ≠ "" := by
  simp only [accessibleName]
  by_cases h1 : jsTrim el.ariaLabel ≠ ""
  · rw [if_pos h1]
    exact jsTrim_jsTrim_ne _ h1
  · rw [if_neg h1]
    rcases h2 : getLabelFromAriaLabelledBy getById el with _ | s2
    · rcases h3 : getLabelFromLabelFor el with _ | s3
      · by_cases h4 : jsTrim el.alt ≠ ""
        · rw [if_pos h4]
          exact jsTrim_jsTrim_ne _ h4
        · rw [if_neg h4]
          by_cases h5 : jsTrim el.title ≠ ""
          · rw [if_pos h5]
            exact jsTrim_jsTrim_ne _ h5
          · rw [if_neg h5]
            have hafter : jsTrim (if trimCollapse el.innerText ≠ ""
                then jsSlice (trimCollapse el.innerText) 120 else el.tag) ≠ "" := by
              by_cases h8 : trimCollapse el.innerText ≠ ""
              · rw [if_pos h8]
                exact trimCollapse_slice_trim_ne _ h8
              · rw [if_neg h8]
                exact h
            by_cases h6 : isInputLike el = true
            · rw [if_pos h6]
              by_cases h7 : jsTrim el.placeholder ≠ ""
              · rw [if_pos h7]
                exact jsTrim_jsTrim_ne _ h7
              · rw [if_neg h7]
                by_cases h9 : jsTrim el.value ≠ "" ∧ (jsTrim el.value).length ≤ 80
                · rw [if_pos h9]
                  exact jsTrim_jsTrim_ne _ h9.1
                · rw [if_neg h9]
                  exact hafter
            · rw [if_neg h6]
              exact hafter
      · exact getLabelFromLabelFor_some_trim el s3 h3
    · exact getLabelFromAriaLabelledBy_some_trim getById el s2 h2

/-- C9.  The accessible name is never empty (the tag name is an
unconditional last resort, and every other branch returns a string with a
non-empty trim), so the scanner's name filter drops nothing: the
survivors are exactly the visible candidates.  The hypothesis
`jsTrim el.tag ≠ ""` records the DOM fact that a real element's tag name
is a non-empty whitespace-free token. -/
theorem accessible_name_never_empty (getById : String → Option String) :
    (∀ el : Elem, jsTrim el.tag ≠ "" →
      accessibleName getById el ≠ "" ∧ jsTrim (accessibleName getById el) ≠ "") ∧
    (∀ cands : List Elem, (∀ el ∈ cands, jsTrim el.tag ≠ "") →
      scanSurvivors getById cands = cands.filter (fun el => isVisible el)) := by
  have key : ∀ el : Elem, jsTrim el.tag ≠ "" →
      accessibleName getById el ≠ "" ∧ jsTrim (accessibleName getById el) ≠ "" := by
    intro el h
    have htrim := accessibleName_trim_ne getById el h
    refine ⟨?_, htrim⟩
    intro hempty
    exact htrim (by rw [hempty]; rfl)
  refine ⟨key, ?_⟩
  intro cands hcands
  unfold scanSurvivors
  rw [List.filter_eq_self]
  intro el hel
  have helc : el ∈ cands := List.mem_of_mem_filter hel
  have := key el (hcands el helc)
  simp only [Bool.not_eq_true', Bool.or_eq_false_iff, beq_eq_false_iff_ne]
  exact ⟨this.1, this.2⟩

/-- Witness for C9: a concrete button has a non-empty accessible name,
and the scanner filter keeps both of a pair of visible candidates. -/
theorem accessible_name_never_empty_witness :
    accessibleName noById buttonElem ≠ "" ∧
      scanSurvivors noById [buttonElem, pwElem] = [buttonElem, pwElem] := by
  refine ⟨((accessible_name_never_empty noById).1 buttonElem (by decide)).1, ?_⟩
  rw [(accessible_name_never_empty noById).2 [buttonElem, pwElem] (by decide)]
  rfl

/-- The specification's per-id text expression equals the source's. -/
theorem labelledTexts_eq (g : String → Option String) (el : Elem) :
    ((splitWs el.ariaLabelledBy).map (fun pid => jsTrim ((g pid).getD ""))).filter
        (fun t => t ≠ "")
      = labelledTexts g el := by
  unfold labelledTexts
  congr 1
  apply List.map_congr_left
  intro pid _
  cases g pid <;> rfl

/-- Characterisation of a successful `aria-labelledby` resolution. -/
theorem getLabelFromAriaLabelledBy_some_eq (g : String → Option String) (el : Elem)
    (s : String) (h : getLabelFromAriaLabelledBy g el = some s) :
    s = jsTrim (String.intercalate " " (labelledTexts g el)) ∧
      jsTrim (String.intercalate " " (labelledTexts g el)) ≠ "" := by
  unfold getLabelFromAriaLabelledBy at h
  by_cases ha : el.ariaLabelledBy = ""
  · rw [if_pos ha] at h
    exact absurd h (by simp)
  · rw [if_neg ha] at h
    by_cases hj : jsTrim (String.intercalate " " (labelledTexts g el)) = ""
    · rw [if_pos hj] at h
      exact absurd h (by simp)
    · rw [if_neg hj] at h
      exact ⟨(Option.some_inj.1 h).symm, hj⟩

/-- Characterisation of a failed `aria-labelledby` resolution: the joined
text is empty (also when the attribute itself is empty). -/
theorem getLabelFromAriaLabelledBy_none_eq (g : String → Option String) (el : Elem)
    (h : getLabelFromAriaLabelledBy g el = none) :
    jsTrim (String.intercalate " " (labelledTexts g el)) = "" := by
  unfold getLabelFromAriaLabelledBy at h
  by_cases ha : el.ariaLabelledBy = ""
  · unfold labelledTexts
    rw [ha]
    rfl
  · rw [if_neg ha] at h
    by_cases hj : jsTrim (String.intercalate " " (labelledTexts g el)) = ""
    · exact hj
    · rw [if_neg hj] at h
      exact absurd h (by simp)

/-- Characterisation of a successful `label[for]` resolution. -/
theorem getLabelFromLabelFor_some_eq (el : Elem) (s : String)
    (h : getLabelFromLabelFor el = some s) :
    s = jsTrim (el.labelForRaw.getD "") ∧ el.idAttr ≠ "" ∧
      jsTrim (el.labelForRaw.getD "") ≠ "" := by
  unfold getLabelFromLabelFor at h
  by_cases ha : el.idAttr = ""
  · rw [if_pos ha] at h
    exact absurd h (by simp)
  · rw [if_neg ha] at h
    by_cases hj : jsTrim (el.labelForRaw.getD "") = ""
    · rw [if_pos hj] at h
      exact absurd h (by simp)
    · rw [if_neg hj] at h
      exact ⟨(Option.some_inj.1 h).symm, ha, hj⟩

/-- Characterisation of a failed `label[for]` resolution: the
specification's candidate expression is empty. -/
theorem getLabelFromLabelFor_none_eq (el : Elem)
    (h : getLabelFromLabelFor el = none) :
    (if el.idAttr = "" then "" else jsTrim (el.labelForRaw.getD "")) = "" := by
  unfold getLabelFromLabelFor at h
  by_cases ha : el.idAttr = ""
  · rw [if_pos ha]
  · rw [if_neg ha] at h ⊢
    by_cases hj : jsTrim (el.labelForRaw.getD "") = ""
    · exact hj
    · rw [if_neg hj] at h
      exact absurd h (by simp)

/-- A positive-length slice of a non-empty string is non-empty. -/
theorem jsSlice_ne_empty (s : String) (n : Nat) (hn : 0 < n) (h : s ≠ "") :
    jsSlice s n ≠ "" := by
  rcases hd : s.data with _ | ⟨c, t⟩
  · exact absurd (String.ext (by rw [hd])) h
  · intro h2
    have hdata : (jsSlice s n).data = [] := congrArg String.data h2
    rw [show (jsSlice s n).data = s.data.take n from rfl, hd, take_pos_cons c t n hn] at hdata
    simp at hdata

/-- C7.  The accessible-name resolution of the source equals the
first-non-empty-candidate resolution in the specification's exact order. -/
theorem accessibleName_matches_spec (getById : String → Option String) (el : Elem) :
    accessibleName getById el = accessibleNameSpec getById el := by
  have hslice0 : jsSlice "" 120 = "" := rfl
  have hafter : (if trimCollapse el.innerText ≠ ""
        then jsSlice (trimCollapse el.innerText) 120 else el.tag)
      = firstNonEmpty el.tag [jsSlice (trimCollapse el.innerText) 120] := by
    by_cases h8 : trimCollapse el.innerText ≠ ""
    · rw [if_pos h8, firstNonEmpty, if_pos (jsSlice_ne_empty _ 120 (by omega) h8)]
    · push_neg at h8
      rw [h8]
      simp [firstNonEmpty, hslice0]
  simp only [accessibleName, accessibleNameSpec]
  rw [labelledTexts_eq]
  by_cases h1 : jsTrim el.ariaLabel ≠ ""
  · rw [if_pos h1, firstNonEmpty, if_pos h1]
  · have h1f : ¬(jsTrim el.ariaLabel ≠ "") := h1
    rw [if_neg h1f, firstNonEmpty, if_neg h1f]
    rcases h2 : getLabelFromAriaLabelledBy getById el with _ | s2
    · have hc2 := getLabelFromAriaLabelledBy_none_eq getById el h2
      have hc2f : ¬(jsTrim (String.intercalate " " (labelledTexts getById el)) ≠ "") := by
        simp [hc2]
      rw [firstNonEmpty, if_neg hc2f]
      rcases h3 : getLabelFromLabelFor el with _ | s3
      · have hc3 := getLabelFromLabelFor_none_eq el h3
        have hc3f : ¬((if el.idAttr = "" then "" else jsTrim (el.labelForRaw.getD "")) ≠ "") := by
          simp [hc3]
        rw [firstNonEmpty, if_neg hc3f]
        by_cases h4 : jsTrim el.alt ≠ ""
        · rw [if_pos h4, firstNonEmpty, if_pos h4]
        · have h4f : ¬(jsTrim el.alt ≠ "") := h4
          rw [if_neg h4f, firstNonEmpty, if_neg h4f]
          by_cases h5 : jsTrim el.title ≠ ""
          · rw [if_pos h5, firstNonEmpty, if_pos h5]
          · have h5f : ¬(jsTrim el.title ≠ "") := h5
            rw [if_neg h5f, firstNonEmpty, if_neg h5f]
            have hef : ¬(("" : String) ≠ "") := by simp
            by_cases h6 : isInputLike el = true
            · rw [if_pos h6, if_pos h6]
              by_cases h7 : jsTrim el.placeholder ≠ ""
              · rw [if_pos h7, firstNonEmpty, if_pos h7]
              · have h7f : ¬(jsTrim el.placeholder ≠ "") := h7
                rw [if_neg h7f, firstNonEmpty, if_neg h7f]
                by_cases h9 : jsTrim el.value ≠ "" ∧ (jsTrim el.value).length ≤ 80
                · have h9c : isInputLike el = true ∧ (jsTrim el.value).length ≤ 80 :=
                    ⟨h6, h9.2⟩
                  rw [if_pos h9, if_pos h9c, firstNonEmpty, if_pos h9.1]
                · rw [if_neg h9]
                  by_cases hlen : (jsTrim el.value).length ≤ 80
                  · have hval : jsTrim el.value = "" := by
                      by_contra hv
                      exact h9 ⟨hv, hlen⟩
                    have h9c : isInputLike el = true ∧ (jsTrim el.value).length ≤ 80 :=
                      ⟨h6, hlen⟩
                    have hvf : ¬(jsTrim el.value ≠ "") := by simp [hval]
                    rw [if_pos h9c, firstNonEmpty, if_neg hvf]
                    exact hafter
                  · have h9cf : ¬(isInputLike el = true ∧ (jsTrim el.value).length ≤ 80) :=
                      fun hc => hlen hc.2
                    rw [if_neg h9cf, firstNonEmpty, if_neg hef]
                    exact hafter
            · have h6f : ¬(isInputLike el = true) := h6
              have h9cf : ¬(isInputLike el = true ∧ (jsTrim el.value).length ≤ 80) :=
                fun hc => h6 hc.1
              rw [if_neg h6f, if_neg h6f, firstNonEmpty, if_neg hef, if_neg h9cf,
                firstNonEmpty, if_neg hef]
              exact hafter
      · have hc3 := getLabelFromLabelFor_some_eq el s3 h3
        have hc3ne : ¬(el.idAttr = "") := hc3.2.1
        rw [firstNonEmpty, if_neg hc3ne, if_pos hc3.2.2, hc3.1]
    · have hs2 := getLabelFromAriaLabelledBy_some_eq getById el s2 h2
      rw [firstNonEmpty, if_pos hs2.2, hs2.1]

/-- A row of `idbGetStepsForEpisode l eid` belongs to episode `eid`. -/
theorem mem_idbGetSteps_episode (l : List StepRow) (eid : String) (r : StepRow)
    (h : r ∈ idbGetStepsForEpisode l eid) : r.episode_id = eid := by
  unfold idbGetStepsForEpisode at h
  have h2 : r ∈ l.filter (fun s => s.episode_id == eid) := (List.mem_insertionSort RowLe).1 h
  have h3 := List.of_mem_filter h2
  simpa using h3

/-- The loop of per-key deletes equals one filter by the deleted key set. -/
theorem foldl_deleteStep_eq_filter (rows : List StepRow) (l : List StepRow) :
    rows.foldl (fun acc (r : StepRow) => deleteStep acc r.episode_id r.step_number) l
      = l.filter (fun s => rows.all
          (fun r => !(s.episode_id == r.episode_id && s.step_number == r.step_number))) := by
  induction rows generalizing l with
  | nil => simp
  | cons r rs ih =>
    rw [List.foldl_cons, ih]
    unfold deleteStep
    rw [List.filter_filter]
    apply List.filter_congr
    intro s _
    simp [Bool.and_comm]

/-- Putting a row of another episode does not change an episode's rows. -/
theorem filter_putStep_ne (l : List StepRow) (r : StepRow) (e : String)
    (h : r.episode_id ≠ e) :
    (putStep l r).filter (fun s => s.episode_id == e)
      = l.filter (fun s => s.episode_id == e) := by
  unfold putStep
  rw [List.filter_append]
  have h1 : List.filter (fun s => s.episode_id == e) [r] = [] := by
    have hb : (r.episode_id == e) = false := beq_eq_false_iff_ne.2 h
    simp [List.filter, hb]
  rw [h1, List.append_nil, List.filter_filter]
  apply List.filter_congr
  intro s _
  by_cases hse : s.episode_id = e
  · have hb : (s.episode_id == r.episode_id) = false := by
      refine beq_eq_false_iff_ne.2 ?_
      intro heq
      exact h (heq ▸ hse)
    simp [hb]
  · have hb : (s.episode_id == e) = false := beq_eq_false_iff_ne.2 hse
    simp [hb]

/-- Deleting a key of another episode does not change an episode's rows. -/
theorem filter_deleteStep_ne (l : List StepRow) (eid : String) (n : Nat) (e : String)
    (h : eid ≠ e) :
    (deleteStep l eid n).filter (fun s => s.episode_id == e)
      = l.filter (fun s => s.episode_id == e) := by
  unfold deleteStep
  rw [List.filter_filter]
  apply List.filter_congr
  intro s _
  by_cases hse : s.episode_id = e
  · have hb : (s.episode_id == eid) = false := by
      refine beq_eq_false_iff_ne.2 ?_
      intro heq
      exact h (heq.symm.trans hse)
    simp [hb]
  · have hb : (s.episode_id == e) = false := beq_eq_false_iff_ne.2 hse
    simp [hb]

/-- Deleting one episode's record leaves other lookups unchanged. -/
theorem getEpisode_deleteEpisode_ne (l : List Episode) (eid e : String) (h : eid ≠ e) :
    getEpisode (deleteEpisode l eid) e = getEpisode l e := by
  unfold getEpisode deleteEpisode
  apply find?_filter_of_imp
  intro x hx
  have hxe : x.episode_id = e := by simpa using hx
  simp [hxe, Ne.symm h]

/-- Writing one episode's record leaves other lookups unchanged. -/
theorem getEpisode_putEpisode_ne (l : List Episode) (ep : Episode) (e : String)
    (h : ep.episode_id ≠ e) :
    getEpisode (putEpisode l ep) e = getEpisode l e := by
  unfold getEpisode putEpisode
  rw [List.find?_append]
  have h1 : List.find? (fun x => x.episode_id == e) [ep] = none := by
    have hb : (ep.episode_id == e) = false := beq_eq_false_iff_ne.2 h
    simp [List.find?, hb]
  rw [h1]
  have h2 := find?_filter_of_imp (fun x => x.episode_id == e)
    (fun x => !(x.episode_id == ep.episode_id)) l ?_
  · rw [show (fun (x : Episode) => x.episode_id == e) = (fun x => x.episode_id == e) from rfl, h2]
    cases List.find? (fun x => x.episode_id == e) l <;> rfl
  · intro x hx
    have hxe : x.episode_id = e := by simpa using hx
    simp [hxe, Ne.symm h]

/-- C5.  Clear is idempotent and resets everything: after a clear the
settings are the fresh non-recording default (isRecording false, no
episode, step count 0, default options), all step rows of the episode
that was active and its episode record are gone, and a second clear
produces the identical state. -/
theorem clear_idempotent_reset (g : BgState) :
    clearAll (clearAll g) = clearAll g ∧
      (clearAll g).settings = clearedSettings ∧
      (∀ eid, g.settings.episodeId = some eid →
        (clearAll g).steps.filter (fun s => s.episode_id == eid) = [] ∧
          getEpisode (clearAll g).episodes eid = none) := by
  refine ⟨rfl, rfl, ?_⟩
  intro eid heid
  constructor
  · show (BgState.steps
        (match g.settings.episodeId with
          | some eid =>
            { g with
              steps := (idbGetStepsForEpisode g.steps eid).foldl
                (fun acc (r : StepRow) => deleteStep acc r.episode_id r.step_number) g.steps,
              episodes := deleteEpisode g.episodes eid }
          | none => g)).filter (fun s => s.episode_id == eid) = []
    rw [heid]
    simp only []
    rw [foldl_deleteStep_eq_filter, List.filter_filter, List.filter_eq_nil_iff]
    intro s hs
    intro hcontra
    rw [Bool.and_eq_true] at hcontra
    have hmem : s ∈ idbGetStepsForEpisode g.steps eid := by
      unfold idbGetStepsForEpisode
      exact (List.mem_insertionSort RowLe).2 (List.mem_filter.2 ⟨hs, hcontra.1⟩)
    have hall := List.all_eq_true.1 hcontra.2 s hmem
    simp at hall
  · show getEpisode (BgState.episodes
        (match g.settings.episodeId with
          | some eid =>
            { g with
              steps := (idbGetStepsForEpisode g.steps eid).foldl
                (fun acc (r : StepRow) => deleteStep acc r.episode_id r.step_number) g.steps,
              episodes := deleteEpisode g.episodes eid }
          | none => g)) eid = none
    rw [heid]
    simp only []
    unfold getEpisode deleteEpisode
    rw [List.find?_eq_none]
    intro x hx
    have := List.of_mem_filter hx
    simpa using this

/-- Witness for C5: clearing the demo state removes episode "ep-A"
entirely and a second clear is the identity on the result. -/
theorem clear_idempotent_reset_witness :
    (clearAll demoState).steps.filter (fun s => s.episode_id == "ep-A") = [] ∧
      getEpisode (clearAll demoState).episodes "ep-A" = none :=
  (clear_idempotent_reset demoState).2.2 "ep-A" rfl

/-- C10.  Frame property: an episode `e` that is not the active one keeps
all of its step rows and its episode record unchanged across every
operation (clear, start with a fresh id, stop, set-options, a step event,
a post-capture firing, export), so previously recorded episodes persist
in storage indefinitely. -/
theorem untouched_episode_frame (g : BgState) (e : String) (op : BgOp)
    (hactive : g.settings.episodeId ≠ some e) (hfresh : opFreshFor e op) :
    (applyBgOp op g).steps.filter (fun s => s.episode_id == e)
        = g.steps.filter (fun s => s.episode_id == e) ∧
      getEpisode (applyBgOp op g).episodes e = getEpisode g.episodes e := by
  cases op with
  | clear =>
    simp only [applyBgOp]
    cases heid : g.settings.episodeId with
    | none =>
      unfold clearAll
      rw [heid]
      exact ⟨rfl, rfl⟩
    | some eid =>
      have hne : eid ≠ e := fun hx => hactive (by rw [heid, hx])
      unfold clearAll
      rw [heid]
      simp only []
      constructor
      · rw [foldl_deleteStep_eq_filter, List.filter_filter]
        apply List.filter_congr
        intro s _
        by_cases hse : s.episode_id = e
        · have hbe : (s.episode_id == e) = true := by simp [hse]
          have hall : ((idbGetStepsForEpisode g.steps eid).all
              (fun r => !(s.episode_id == r.episode_id && s.step_number == r.step_number)))
                = true := by
            rw [List.all_eq_true]
            intro r hr
            have hre := mem_idbGetSteps_episode g.steps eid r hr
            have hb : (s.episode_id == r.episode_id) = false := by
              refine beq_eq_false_iff_ne.2 ?_
              intro hx
              exact hne (by rw [← hre, ← hx, hse])
            simp [hb]
          rw [hbe, hall]
          rfl
        · have hb : (s.episode_id == e) = false := beq_eq_false_iff_ne.2 hse
          rw [hb]
          simp
      · exact getEpisode_deleteEpisode_ne g.episodes eid e hne
  | start id ca t tab ok err opts =>
    simp only [applyBgOp]
    exact ⟨rfl, getEpisode_putEpisode_ne g.episodes ⟨id, ca⟩ e hfresh⟩
  | stop =>
    simp only [applyBgOp]
    unfold stopRecording
    split
    · exact ⟨rfl, rfl⟩
    · exact ⟨rfl, rfl⟩
  | setOpts o => exact ⟨rfl, rfl⟩
  | stepEvent sid pre =>
    simp only [applyBgOp]
    unfold handleStepEvent stepRead
    by_cases hrec : g.settings.isRecording
    · rw [if_neg (show ¬((!g.settings.isRecording) = true) by simp [hrec])]
      cases heid : g.settings.episodeId with
      | none => exact ⟨rfl, rfl⟩
      | some eid =>
        have hne : eid ≠ e := fun hx => hactive (by rw [heid, hx])
        simp only []
        constructor
        · unfold stepCountWrite stepPendingPut
          rw [heid]
          simp only []
          exact filter_putStep_ne _ _ e hne
        · unfold stepCountWrite stepPendingPut
          rw [heid]
    · rw [if_pos (show ((!g.settings.isRecording) = true) by simp [hrec])]
      exact ⟨rfl, rfl⟩
  | postFire e2 n pre post =>
    simp only [applyBgOp]
    unfold postCaptureFire
    cases heid : g.settings.episodeId with
    | none => exact ⟨rfl, rfl⟩
    | some cur =>
      dsimp only
      by_cases hcur : cur ≠ e2
      · rw [if_pos hcur]
        exact ⟨rfl, rfl⟩
      · rw [if_neg hcur]
        push_neg at hcur
        cases hrow : getStep g.steps e2 n with
        | none => exact ⟨rfl, rfl⟩
        | some row =>
          dsimp only
          have hfind := List.find?_some
            (p := fun (s : StepRow) => s.episode_id == e2 && s.step_number == n)
            (by exact hrow)
          have hrowep : row.episode_id = e2 := by
            rw [Bool.and_eq_true] at hfind
            simpa using hfind.1
          have hne2 : row.episode_id ≠ e := by
            rw [hrowep, ← hcur]
            intro hx
            exact hactive (by rw [heid, hx])
          exact ⟨filter_putStep_ne _ _ e hne2, rfl⟩
  | exportOp => exact ⟨rfl, rfl⟩

/-- Witness for C10: clearing while "ep-B" is active leaves "ep-A"'s rows
and episode record exactly as they were. -/
theorem untouched_episode_frame_witness :
    (applyBgOp BgOp.clear demoStateB).steps.filter (fun s => s.episode_id == "ep-A")
        = demoStateB.steps.filter (fun s => s.episode_id == "ep-A") ∧
      getEpisode (applyBgOp BgOp.clear demoStateB).episodes "ep-A"
        = getEpisode demoStateB.episodes "ep-A" :=
  untouched_episode_frame demoStateB "ep-A" BgOp.clear (by decide) trivial

/-- Writing a step row, restricted to its own episode: the stored rows of
that episode are the old ones without the overwritten key, plus the new
row at the end. -/
theorem filter_putStep_same (l : List StepRow) (r : StepRow) :
    (putStep l r).filter (fun s => s.episode_id == r.episode_id)
      = (l.filter (fun s => s.episode_id == r.episode_id)).filter
          (fun s => !(s.step_number == r.step_number)) ++ [r] := by
  unfold putStep
  rw [List.filter_append]
  have h1 : List.filter (fun s => s.episode_id == r.episode_id) [r] = [r] := by simp
  rw [h1]
  congr 1
  rw [List.filter_filter, List.filter_filter]
  apply List.filter_congr
  intro s _
  cases s.episode_id == r.episode_id <;> cases s.step_number == r.step_number <;> rfl

/-- Invariant of the sequential run: after `n` step events from a fresh
recording start, the settings still carry the episode and a counter equal
to `n`, the episodes store is untouched, and the episode's stored rows
are exactly the pending rows 0..n-1 in order. -/
theorem runSteps_invariant (ids : Nat → String) (pres : Nat → Obs) (newId : String)
    (g1 : BgState) (hrec : g1.settings.isRecording = true)
    (heid : g1.settings.episodeId = some newId)
    (hcount : g1.settings.stepCount = 0)
    (hfresh : g1.steps.filter (fun s => s.episode_id == newId) = []) (n : Nat) :
    (runSteps ids pres n g1).settings.isRecording = true ∧
      (runSteps ids pres n g1).settings.episodeId = some newId ∧
      (runSteps ids pres n g1).settings.stepCount = n ∧
      (runSteps ids pres n g1).episodes = g1.episodes ∧
      (runSteps ids pres n g1).steps.filter (fun s => s.episode_id == newId)
        = (List.range n).map (stepRowAt ids pres newId) := by
  induction n with
  | zero => exact ⟨hrec, heid, hcount, rfl, by simpa using hfresh⟩
  | succ k ih =>
    obtain ⟨irec, ieid, icount, ieps, isteps⟩ := ih
    have hstep : handleStepEvent (ids k) (pres k) (runSteps ids pres k g1)
        = (stepCountWrite (runSteps ids pres k g1).settings
            (stepPendingPut (runSteps ids pres k g1).settings (ids k) (pres k)
              (runSteps ids pres k g1)),
           some (runSteps ids pres k g1).settings.stepCount) := by
      unfold handleStepEvent stepRead
      rw [if_neg (show ¬((!(runSteps ids pres k g1).settings.isRecording) = true) by
        simp [irec]), ieid]
    have hput : stepPendingPut (runSteps ids pres k g1).settings (ids k) (pres k)
        (runSteps ids pres k g1)
        = { runSteps ids pres k g1 with
            steps := putStep (runSteps ids pres k g1).steps
              (stepRowAt ids pres newId k) } := by
      unfold stepPendingPut
      rw [ieid]
      simp only []
      rw [icount]
      rfl
    have hrun : runSteps ids pres (k + 1) g1
        = stepCountWrite (runSteps ids pres k g1).settings
            { runSteps ids pres k g1 with
              steps := putStep (runSteps ids pres k g1).steps
                (stepRowAt ids pres newId k) } := by
      show (handleStepEvent (ids k) (pres k) (runSteps ids pres k g1)).1 = _
      rw [hstep, hput]
    rw [hrun]
    unfold stepCountWrite
    refine ⟨irec, ieid, by rw [icount], ieps, ?_⟩
    show (putStep (runSteps ids pres k g1).steps (stepRowAt ids pres newId k)).filter
        (fun s => s.episode_id == newId) = _
    rw [show (fun (s : StepRow) => s.episode_id == newId)
        = (fun (s : StepRow) => s.episode_id == (stepRowAt ids pres newId k).episode_id)
        from rfl]
    rw [filter_putStep_same]
    rw [show (fun (s : StepRow) => s.episode_id == (stepRowAt ids pres newId k).episode_id)
        = (fun (s : StepRow) => s.episode_id == newId) from rfl]
    rw [isteps]
    have hkeep : ((List.range k).map (stepRowAt ids pres newId)).filter
        (fun s => !(s.step_number == (stepRowAt ids pres newId k).step_number))
        = (List.range k).map (stepRowAt ids pres newId) := by
      rw [List.filter_eq_self]
      intro r hr
      rcases List.mem_map.1 hr with ⟨j, hj, hjr⟩
      have hjk : j < k := List.mem_range.1 hj
      rw [← hjr]
      simp [stepRowAt]
      omega
    rw [hkeep, List.range_succ, List.map_append]
    rfl

/-- C3.  Export after a fresh start followed by `n` sequentially handled
step events: the exported steps are exactly the pending records with
step_numbers `0, 1, ..., n-1` — strictly ascending, no gaps, no
duplicates — the still-pending steps (post and derived null) are
included, and the reported step count is `n`. -/
theorem export_steps_sorted (g : BgState) (newId createdAt : String) (t : Nat)
    (opts : OptionsPatch) (ids : Nat → String) (pres : Nat → Obs) (n : Nat)
    (hfresh : g.steps.filter (fun s => s.episode_id == newId) = []) :
    ∃ out epOut,
      exportEpisode (runSteps ids pres n
          (startRecording newId createdAt t true true "" opts g).1) = Except.ok out ∧
        out.episode = some epOut ∧
        epOut.steps.map (fun s => s.step_number) = List.range n ∧
        List.Pairwise (fun a b => a < b) (epOut.steps.map (fun s => s.step_number)) ∧
        (∀ s ∈ epOut.steps, s.post = none ∧ s.derived = none) ∧
        out.stepCount = n := by
  obtain ⟨irec, ieid, icount, ieps, isteps⟩ :=
    runSteps_invariant ids pres newId
      (startRecording newId createdAt t true true "" opts g).1 rfl rfl rfl hfresh n
  have hrows : idbGetStepsForEpisode
      (runSteps ids pres n (startRecording newId createdAt t true true "" opts g).1).steps newId
      = (List.range n).map (stepRowAt ids pres newId) := by
    unfold idbGetStepsForEpisode
    rw [isteps]
    apply List.Sorted.insertionSort_eq
    exact List.Pairwise.map (stepRowAt ids pres newId)
      (fun a b hab => Nat.le_of_lt hab) (List.sorted_lt_range n)
  have hep : getEpisode
      (runSteps ids pres n (startRecording newId createdAt t true true "" opts g).1).episodes
      newId = some { episode_id := newId, created_at := createdAt } := by
    rw [ieps]
    exact getEpisode_putEpisode_self g.episodes { episode_id := newId, created_at := createdAt }
  have hexp : exportEpisode
      (runSteps ids pres n (startRecording newId createdAt t true true "" opts g).1)
      = Except.ok
        { episode := some
            { episode_id := newId, created_at := createdAt,
              options := (runSteps ids pres n
                (startRecording newId createdAt t true true "" opts g).1).settings.options,
              steps := ((List.range n).map (stepRowAt ids pres newId)).map
                (fun r => r.step) },
          episodeId := some newId,
          stepCount := ((List.range n).map (stepRowAt ids pres newId)).length,
          lastMessage := "Exported." } := by
    unfold exportEpisode
    rw [ieid]
    dsimp only
    rw [hep]
    dsimp only
    rw [hrows]
  refine ⟨_, _, hexp, rfl, ?_, ?_, ?_, ?_⟩
  · rw [List.map_map, List.map_map]
    show List.map (fun k => k) (List.range n) = List.range n
    simp
  · rw [List.map_map, List.map_map]
    show List.Pairwise (fun a b => a < b) (List.map (fun k => k) (List.range n))
    simpa using List.sorted_lt_range n
  · intro s hs
    rw [List.map_map] at hs
    rcases List.mem_map.1 hs with ⟨j, _, hj⟩
    rw [← hj]
    exact ⟨rfl, rfl⟩
  · simp

/-- Witness for C3: a concrete run of two step events exports steps
numbered 0 and 1, all still pending. -/
theorem export_steps_sorted_witness :
    ∃ out epOut,
      exportEpisode (runSteps (fun k => "sid-" ++ toString k) (fun _ => demoObs) 2
          (startRecording "ep-C" "2026-01-02T00:00:00.000Z" 7 true true "" {} freshState).1)
          = Except.ok out ∧
        out.episode = some epOut ∧
        epOut.steps.map (fun s => s.step_number) = List.range 2 ∧
        List.Pairwise (fun a b => a < b) (epOut.steps.map (fun s => s.step_number)) ∧
        (∀ s ∈ epOut.steps, s.post = none ∧ s.derived = none) ∧
        out.stepCount = 2 :=
  export_steps_sorted freshState "ep-C" "2026-01-02T00:00:00.000Z" 7 {}
    (fun k => "sid-" ++ toString k) (fun _ => demoObs) 2 rfl

/-- The comparator order in readable form: in-viewport items come first;
within a viewport group the order is ascending y, then ascending x. -/
theorem itemLe_iff (a b : ScanItem) :
    ItemLe a b ↔ ((b.in_viewport = true → a.in_viewport = true) ∧
      (a.in_viewport = b.in_viewport → (a.y < b.y ∨ (a.y = b.y ∧ a.x ≤ b.x)))) := by
  unfold ItemLe cmpItems
  cases ha : a.in_viewport <;> cases hb : b.in_viewport <;>
    simp [ha, hb] <;> split_ifs <;> omega

/-- The comparator order is transitive. -/
theorem itemLe_trans (a b c : ScanItem) (hab : ItemLe a b) (hbc : ItemLe b c) :
    ItemLe a c := by
  unfold ItemLe cmpItems at *
  cases ha : a.in_viewport <;> cases hb : b.in_viewport <;> cases hc : c.in_viewport <;>
    simp [ha, hb, hc] at * <;> split_ifs at * <;> omega

/-- The comparator order is total. -/
theorem itemLe_total (a b : ScanItem) : ItemLe a b ∨ ItemLe b a := by
  unfold ItemLe cmpItems
  cases ha : a.in_viewport <;> cases hb : b.in_viewport <;>
    simp [ha, hb] <;> split_ifs <;> omega

instance : IsTrans ScanItem ItemLe := ⟨itemLe_trans⟩

instance : IsTotal ScanItem ItemLe := ⟨itemLe_total⟩

/-- C4.  The scanner's ranking: the ranked list is a permutation of the
surviving items that is pairwise ordered — every in-viewport item before
every out-of-viewport item, and within a viewport group ascending top
then ascending left; the comparator is a total transitive order (so a
stable sort of identical page state is deterministic); the scan output
truncates the ranked list to the limit after ranking; and of two items,
one in the viewport and one not, the in-viewport one ranks first in
either input (DOM) order. -/
theorem scanner_ranking (items : List ScanItem) (limit : Nat) :
    (rankItems items).Perm items ∧
      List.Pairwise (fun a b =>
        (b.in_viewport = true → a.in_viewport = true) ∧
          (a.in_viewport = b.in_viewport → (a.y < b.y ∨ (a.y = b.y ∧ a.x ≤ b.x))))
        (rankItems items) ∧
      (∀ a b c, ItemLe a b → ItemLe b c → ItemLe a c) ∧
      (∀ a b, ItemLe a b ∨ ItemLe b a) ∧
      (∀ getById vw vh cands,
        listInteractablesModel getById vw vh cands limit
          = (rankItems (((scanSurvivors getById cands).take (limit * 2)).map
              (toScanItem getById vw vh))).take limit) ∧
      (∀ getById vw vh cands,
        (listInteractablesModel getById vw vh cands limit).length ≤ limit) ∧
      (∀ a b : ScanItem, a.in_viewport = true → b.in_viewport = false →
        (rankItems [a, b]).head? = some a ∧ (rankItems [b, a]).head? = some a) := by
  refine ⟨List.perm_insertionSort ItemLe items, ?_, itemLe_trans, itemLe_total,
    fun _ _ _ _ => rfl, ?_, ?_⟩
  · exact (List.sorted_insertionSort ItemLe items).imp (fun h => (itemLe_iff _ _).1 h)
  · intro getById vw vh cands
    unfold listInteractablesModel
    exact List.length_take_le _ _
  · intro a b ha hb
    have hab : ItemLe a b := by
      unfold ItemLe cmpItems
      rw [if_pos (by simp [ha, hb]), if_pos ha]
      norm_num
    have hba : ¬ItemLe b a := by
      unfold ItemLe cmpItems
      rw [if_pos (by simp [ha, hb]), if_neg (by simp [hb])]
      norm_num
    constructor
    · show (List.insertionSort ItemLe [a, b]).head? = some a
      simp [List.insertionSort, List.orderedInsert, hab]
    · show (List.insertionSort ItemLe [b, a]).head? = some a
      simp [List.insertionSort, List.orderedInsert, hba]

/-- Witness for C4: with a below-the-fold item and an in-viewport item,
the in-viewport one ranks first regardless of input order. -/
theorem scanner_ranking_witness :
    (rankItems [inViewItem, belowFoldItem]).head? = some inViewItem ∧
      (rankItems [belowFoldItem, inViewItem]).head? = some inViewItem :=
  (scanner_ranking [] 60).2.2.2.2.2.2 inViewItem belowFoldItem rfl rfl
